import Mathlib

/-!
Verification of the ast-video-processor media pipeline.

This file gives a shallow embedding, in Lean 4, of the pipeline logic of the
repository (src/routes/video.js and the S3 upload utilities in
src/unnamed/part_002), and proves the frozen specification claims about it.

Conventions of the embedding:
* Byte strings are `List Nat` (one Nat per byte, < 256); JavaScript
  `Buffer.from(string)` is modelled by `utf8Bytes`, a direct UTF-8 encoder.
* JavaScript objects whose key insertion order matters (the presigned S3
  signature fields) are modelled as association lists `List (String × String)`,
  matching `Object.entries` enumeration order.
* Stateful route handlers become pure functions from an `Env` — a record
  holding the outcome of every external operation the handler awaits
  (multipart parse, explainer lookup, download, each ffmpeg stage, token
  fetch, presign call, S3 upload, metadata patch) — to a result paired with a
  trace (`List Event`) of the observable actions the handler performed, in
  order.
* JavaScript truthiness of an optional string field is `truthy`:
  present and non-empty.
* Timestamp-suffixed scratch file names (`Date.now()`) are modelled by fixed
  distinct path constants; only their identity matters to the claims.
-/

namespace AstVideo

/-- UTF-8 encoding of a single character as a list of byte values, exactly
what the Node Buffer.from encoding produces per character. -/
def utf8EncodeCharNat (c : Char) : List Nat :=
  let v := c.toNat
  if v < 0x80 then [v]
  else if v < 0x800 then [0xC0 ||| (v >>> 6), 0x80 ||| (v &&& 0x3F)]
  else if v < 0x10000 then
    [0xE0 ||| (v >>> 12), 0x80 ||| ((v >>> 6) &&& 0x3F), 0x80 ||| (v &&& 0x3F)]
  else
    [0xF0 ||| (v >>> 18), 0x80 ||| ((v >>> 12) &&& 0x3F),
     0x80 ||| ((v >>> 6) &&& 0x3F), 0x80 ||| (v &&& 0x3F)]

/-- Byte encoding of a string (model of `Buffer.from(s)` / `Buffer.byteLength`). -/
def utf8Bytes (s : String) : List Nat := s.data.flatMap utf8EncodeCharNat

theorem utf8Bytes_append (a b : String) :
    utf8Bytes (a ++ b) = utf8Bytes a ++ utf8Bytes b := by
  simp [utf8Bytes, String.data_append, List.flatMap_append]

theorem utf8Bytes_foldl (l : List String) (a : String) :
    utf8Bytes (l.foldl (fun r s => r ++ s) a)
      = utf8Bytes a ++ l.flatMap utf8Bytes := by
  induction l generalizing a with
  | nil => simp
  | cons h t ih => simp [List.foldl, ih, utf8Bytes_append, List.append_assoc]

theorem utf8Bytes_join (l : List String) :
    utf8Bytes (String.join l) = l.flatMap utf8Bytes := by
  have h : utf8Bytes "" = [] := rfl
  simpa [String.join, h] using utf8Bytes_foldl l ""

/-! ## Upload Client — multipart form body construction

Embeds `uploadToS3Form` (src/unnamed/part_002 lines 57–95, duplicated in
src/routes/video.js lines 219–247).  The JS code builds every text part as a
template string, joins them, appends the file part header, and computes
`Content-Length` from the resulting buffer lengths plus the file size. -/

/-- One text form part: the JS template string
`--boundary\r\nContent-Disposition: form-data; name="<name>"\r\n\r\n<value>\r\n`. -/
def fieldPart (boundary name value : String) : String :=
  "--" ++ boundary ++ "\r\nContent-Disposition: form-data; name=\"" ++ name
    ++ "\"\r\n\r\n" ++ value ++ "\r\n"

/-- The file part header (`fileHeader` in the source). -/
def fileHeader (boundary contentType : String) : String :=
  "--" ++ boundary
    ++ "\r\nContent-Disposition: form-data; name=\"file\"; filename=\"video.mp4\"\r\nContent-Type: "
    ++ contentType ++ "\r\n\r\n"

/-- The closing boundary (`fileFooter` in the source). -/
def fileFooter (boundary : String) : String := "\r\n--" ++ boundary ++ "--\r\n"

/-- The `formParts` array built by the source loop: one part per signature
field in `Object.entries` order, then the `key` field, then `Content-Type`. -/
def formParts (boundary : String) (s3Fields : List (String × String))
    (s3Key contentType : String) : List String :=
  (s3Fields.map fun kv => fieldPart boundary kv.1 kv.2)
    ++ [fieldPart boundary "key" s3Key, fieldPart boundary "Content-Type" contentType]

/-- Embeds preFileBuffer of the source: the joined form parts plus the file
part header, byte-encoded. -/
def preFileString (boundary : String) (s3Fields : List (String × String))
    (s3Key contentType : String) : String :=
  String.join (formParts boundary s3Fields s3Key contentType)
    ++ fileHeader boundary contentType

/-- The byte sequence actually written on the wire: `req.write(preFileBuffer)`,
the streamed file chunks, then `req.write(postFileBuffer)` (source
lines 111–120). -/
def bodyBytes (boundary : String) (s3Fields : List (String × String))
    (s3Key contentType : String) (fileBytes : List Nat) : List Nat :=
  utf8Bytes (preFileString boundary s3Fields s3Key contentType)
    ++ fileBytes ++ utf8Bytes (fileFooter boundary)

/-- Embeds totalLength of the source: preFileBuffer length plus fileSize plus
postFileBuffer length (line 85). -/
def totalLength (boundary : String) (s3Fields : List (String × String))
    (s3Key contentType : String) (fileSize : Nat) : Nat :=
  (utf8Bytes (preFileString boundary s3Fields s3Key contentType)).length
    + fileSize + (utf8Bytes (fileFooter boundary)).length

/-- The request headers set by `uploadToS3Form` (source lines 92–94).  No
`Transfer-Encoding` header is set; Node sends a fixed-length body whenever
`Content-Length` is given. -/
def uploadFormHeaders (boundary : String) (s3Fields : List (String × String))
    (s3Key contentType : String) (fileSize : Nat) : List (String × String) :=
  [("Content-Type", "multipart/form-data; boundary=" ++ boundary),
   ("Content-Length", toString (totalLength boundary s3Fields s3Key contentType fileSize))]

/-- Modelled from the words of the spec (refinement target for C2): the multipart
body is every signer-supplied field in the order supplied, then the object
key field, then the content-type field, then the file part, then the closing
boundary. -/
def specOrderedBody (boundary : String) (s3Fields : List (String × String))
    (s3Key contentType : String) (fileBytes : List Nat) : List Nat :=
  (s3Fields.flatMap fun kv => utf8Bytes (fieldPart boundary kv.1 kv.2))
    ++ utf8Bytes (fieldPart boundary "key" s3Key)
    ++ utf8Bytes (fieldPart boundary "Content-Type" contentType)
    ++ (utf8Bytes (fileHeader boundary contentType) ++ fileBytes)
    ++ utf8Bytes (fileFooter boundary)

/-! ## Upload Client — status handling (both modes)

`formPostResult` embeds the response handling of `uploadToS3Form`
(src/unnamed/part_002 lines 96–107): 204, 200 and 201 succeed, anything else
rejects with an error carrying the status and response body.
`putResult` embeds the response handling of `uploadToS3`
(src/unnamed/part_002 lines 30–41): only 200 succeeds. -/

/-- Response handling of the form-POST upload mode. -/
def formPostResult (status : Nat) (body : String) : Except (Nat × String) Unit :=
  if status = 204 ∨ status = 200 ∨ status = 201 then Except.ok ()
  else Except.error (status, body)

/-- Response handling of the direct-PUT upload mode. -/
def putResult (status : Nat) (body : String) : Except (Nat × String) Unit :=
  if status = 200 then Except.ok () else Except.error (status, body)

/-! ## Rating mapping (src/routes/video.js lines 596–607)

The object literal ratingMap maps GOOD to 1, MAYRQRATTN to 2 and RQRSATTN
to 3.  A JavaScript bracket lookup on a plain object literal consults the
prototype chain on an own-property miss, so for a rating string naming an
Object.prototype member (constructor, toString, valueOf, ...) the lookup
yields the truthy inherited member — a function, or for the proto accessor
the prototype object — and the or-3 fallback does not fire; JSON
serialization then carries no numeric id.  Only when the lookup is
undefined does ratingId fall back to 3.  The code field falls back to the
literal RQRSATTN when the rating is falsy. -/

/-- Value of the bracket lookup on the rating object: an own numeric
property, a truthy inherited Object.prototype member (not a number), or
undefined. -/
inductive JsLookup
  | num (n : Nat)
  | protoMember
  | undef
deriving DecidableEq

/-- The property names of Object.prototype, which a bracket lookup on an
object literal reaches through the prototype chain. -/
def objectProtoProps : List String :=
  ["constructor", "hasOwnProperty", "isPrototypeOf", "propertyIsEnumerable",
   "toLocaleString", "toString", "valueOf",
   "__defineGetter__", "__defineSetter__", "__lookupGetter__",
   "__lookupSetter__", "__proto__"]

/-- The bracket lookup on the ratingMap object literal of line 597,
prototype chain included. -/
def ratingMap (s : String) : JsLookup :=
  if s = "GOOD" then JsLookup.num 1
  else if s = "MAYRQRATTN" then JsLookup.num 2
  else if s = "RQRSATTN" then JsLookup.num 3
  else if s ∈ objectProtoProps then JsLookup.protoMember
  else JsLookup.undef

/-- Embeds the ratingId expression (lookup, then or-3): an absent rating or
an undefined lookup yields the number 3; a truthy inherited member defeats
the fallback and the value is that non-number. -/
def ratingIdOf (rating : Option String) : JsLookup :=
  match rating with
  | none => JsLookup.num 3
  | some s =>
    match ratingMap s with
    | JsLookup.undef => JsLookup.num 3
    | v => v

/-- The numeric inspectionRating id present in the serialized update that is
sent: a number survives JSON serialization; an inherited function is
omitted by it (and the proto object is not a number), so in those cases no
numeric id is sent at all. -/
def sentRatingId (rating : Option String) : Option Nat :=
  match ratingIdOf rating with
  | JsLookup.num n => some n
  | _ => none

/-- Embeds the code fallback: JS falsiness makes an absent or empty rating
string fall back to the literal RQRSATTN. -/
def ratingCodeOf (rating : Option String) : String :=
  match rating with
  | some r => if r = "" then "RQRSATTN" else r
  | none => "RQRSATTN"

/-- The rating display name ternary chain of line 607, comparing the looked
up ratingId value against 1 and 2. -/
def ratingNameOf (v : JsLookup) : String :=
  if v = JsLookup.num 1 then "Good"
  else if v = JsLookup.num 2 then "May Require Attention"
  else "Requires Immediate Attention"

/-! ## Pipeline model: events, environment, merge engine, route handler -/

/-- Observable actions of one merge-and-upload run, in the order performed.
`record p` is `needsCleanup.push(p)`; `runStage n` is the n-th `runFFmpeg`
invocation inside `mergeVideos`; `unlinkTry p` is an attempted deletion of
`p` (always wrapped in try/catch in the source); `upload p` is the
`uploadToS3Form` invocation on final video path `p`; `patch i c` is the
inspection-task PUT whose serialized `inspectionRating` carries numeric id
`i` (`none` when the prototype-chain lookup produced a non-number that JSON
serialization does not send as a numeric id) and code `c`; `respond` is the
HTTP response being sent. -/
inductive Event
  | record (p : String)
  | runStage (n : Nat)
  | unlinkTry (p : String)
  | upload (p : String)
  | patch (ratingId : Option Nat) (ratingCode : String)
  | respond
deriving DecidableEq

/-- The parsed upload: `videoFile` produced by `parseMultipart`. -/
structure VideoFile where
  path : String
  filename : String
deriving DecidableEq

/-- The multipart text fields of the merge-and-upload request.  A field the
client did not send is `none`. -/
structure Fields where
  shopId : Option String
  roId : Option String
  inspectionId : Option String
  taskId : Option String
  taskName : Option String
  rating : Option String
  description : Option String
  explainerVideoId : Option String
  taskData : Option String
deriving DecidableEq

/-- A row returned by the Supabase explainer lookup: `file_url` may be null. -/
structure Explainer where
  file_url : Option String
  name : String
deriving DecidableEq

/-- An HTTP response as `proxyToTM` resolves it: status plus raw body. -/
structure TMResponse where
  status : Nat
  body : String
deriving DecidableEq

/-- JS truthiness of an optional string: present and non-empty. -/
def truthy : Option String → Bool
  | none => false
  | some s => !(s == "")

/-- Outcomes of every external operation one merge-and-upload run awaits.
`parse`: `parseMultipart` (error = busboy reject).  `explainerLookup`:
`getExplainerVideoUrl` (it catches its own errors and returns null, so no
error case).  `downloadOk`: whether `downloadFile` resolves.  `stageOk n`:
whether the n-th ffmpeg stage exits 0.  `unlinkOk p`: whether deleting `p`
succeeds (always swallowed by the source).  `jwt`: `getJWTToken` result
(`none` = throws / falsy).  `presigned`: the create-upload-url call (`none`
= network reject).  `presignedTarget`: whether its body parses to
`data[0].s3`.  `uploadStatus`: S3 response status (`none` = network error).
`patchResp`: the metadata PUT (`none` = network reject; `proxyToTM` resolves
on any HTTP status). -/
structure Env where
  parse : Except String (Fields × Option VideoFile)
  explainerLookup : Option Explainer
  downloadOk : Bool
  stageOk : Nat → Bool
  unlinkOk : String → Bool
  jwt : Option String
  presigned : Option TMResponse
  presignedTarget : Bool
  uploadStatus : Option Nat
  patchResp : Option TMResponse

/-- The HTTP response the route sends: 200 JSON with the `merged` flag,
a 400 validation error, or the catch-all 500. -/
inductive Outcome
  | success (merged : Bool)
  | badRequest (msg : String)
  | failure (msg : String)
deriving DecidableEq

/-- Scratch path constants (source: `path.join(os.tmpdir(), ...Date.now()...)`;
the timestamp suffix is abstracted, the four names are distinct). -/
def tempVideo1 : String := "/tmp/temp1.ts"

def tempVideo2 : String := "/tmp/temp2.ts"

def explainerPath : String := "/tmp/explainer.mp4"

def mergedPath : String := "/tmp/merged.mp4"

/-- Embeds a try/catch around fs.unlinkSync: the deletion is attempted and
its outcome (`unlinkOk p`) is swallowed, so it does not appear in the result. -/
def tryUnlink (unlinkOk : String → Bool) (p : String) : List Event :=
  [Event.unlinkTry p]

/-- The cleanup helper of the route (src/routes/video.js lines 755–765):
every path gets its own try/catch deletion attempt; a failure is logged and
the loop continues; the function never throws. -/
def cleanup (unlinkOk : String → Bool) (files : List String) : List Event :=
  files.flatMap (tryUnlink unlinkOk)

/-- Embeds mergeVideos (src/routes/video.js lines 89–139): three sequential
`runFFmpeg` awaits — a failed await throws, skipping the rest — followed by a
`finally` block that try/catch-deletes both intermediate files.  Returns
whether the merge succeeded, plus the trace. -/
def mergeVideos (stageOk : Nat → Bool) (unlinkOk : String → Bool) :
    Bool × List Event :=
  let core : Bool × List Event :=
    if stageOk 1 then
      if stageOk 2 then
        (stageOk 3, [Event.runStage 1, Event.runStage 2, Event.runStage 3])
      else (false, [Event.runStage 1, Event.runStage 2])
    else (false, [Event.runStage 1])
  (core.1, core.2 ++ tryUnlink unlinkOk tempVideo1 ++ tryUnlink unlinkOk tempVideo2)

/-- The tail of the route after `finalVideoPath` is fixed (src/routes/video.js
lines 554–641): token fetch, presign call, S3 upload, metadata patch.  Every
failure throws into the shared catch block; the value returned here is the
outcome plus only the events this phase itself emits (the caller appends the
guaranteed `cleanup` pass and the final respond). -/
def uploadPhase (env : Env) (f : Fields) (finalPath : String) :
    Outcome × List Event :=
  match env.jwt with
  | none => (Outcome.failure "No JWT token available", [])
  | some _ =>
    match env.presigned with
    | none => (Outcome.failure "presign request error", [])
    | some resp =>
      if resp.status ≠ 200 then
        (Outcome.failure ("Failed to get presigned URL (" ++ toString resp.status
          ++ "): " ++ resp.body), [])
      else if env.presignedTarget = false then
        (Outcome.failure "Invalid response structure", [])
      else
        match env.uploadStatus with
        | none => (Outcome.failure "upload request error", [Event.upload finalPath])
        | some s =>
          if s = 204 ∨ s = 200 ∨ s = 201 then
            match env.patchResp with
            | none =>
              (Outcome.failure "patch request error",
               [Event.upload finalPath,
                Event.patch (sentRatingId f.rating) (ratingCodeOf f.rating)])
            | some _ =>
              (Outcome.success (truthy f.explainerVideoId),
               [Event.upload finalPath,
                Event.patch (sentRatingId f.rating) (ratingCodeOf f.rating)])
          else
            (Outcome.failure ("S3 upload failed: " ++ toString s),
             [Event.upload finalPath])

/-- Glue shared by every exit of the post-validation region: the catch block
of the source and its success path both run the cleanup pass over the
needsCleanup list and then send the response. -/
def finishRun (env : Env) (needs : List String) (tr : List Event)
    (out : Outcome) : Outcome × List Event :=
  (out, tr ++ cleanup env.unlinkOk needs ++ [Event.respond])

/-- The explainer/merge region of the route (src/routes/video.js lines
525–552) followed by the upload phase.  `vf` is the parsed upload; the
needs-cleanup list already holds `vf.path`. -/
def mergePhase (env : Env) (f : Fields) (vf : VideoFile) :
    Outcome × List Event :=
  let needs0 := [vf.path]
  let tr0 := [Event.record vf.path]
  if truthy f.explainerVideoId then
    match env.explainerLookup with
    | some ex =>
      if truthy ex.file_url then
        let needs1 := needs0 ++ [explainerPath]
        let tr1 := tr0 ++ [Event.record explainerPath]
        if env.downloadOk then
          let needs2 := needs1 ++ [mergedPath]
          let tr2 := tr1 ++ [Event.record mergedPath]
          let m := mergeVideos env.stageOk env.unlinkOk
          if m.1 then
            let up := uploadPhase env f mergedPath
            finishRun env needs2 (tr2 ++ m.2 ++ up.2) up.1
          else
            finishRun env needs2 (tr2 ++ m.2) (Outcome.failure "FFmpeg failed")
        else
          finishRun env needs1 tr1 (Outcome.failure "Download failed")
      else
        let up := uploadPhase env f vf.path
        finishRun env needs0 (tr0 ++ up.2) up.1
    | none =>
      let up := uploadPhase env f vf.path
      finishRun env needs0 (tr0 ++ up.2) up.1
  else
    let up := uploadPhase env f vf.path
    finishRun env needs0 (tr0 ++ up.2) up.1

/-- The POST /merge-and-upload handler (src/routes/video.js lines 499–642).
A multipart parse error lands in the catch block with an empty needsCleanup;
a missing video file returns 400 before anything is recorded; missing
required text fields clean up the recorded upload and return 400; otherwise
the merge phase and upload phase run. -/
def handler (env : Env) : Outcome × List Event :=
  match env.parse with
  | Except.error msg =>
    (Outcome.failure msg, cleanup env.unlinkOk [] ++ [Event.respond])
  | Except.ok (f, vfOpt) =>
    match vfOpt with
    | none => (Outcome.badRequest "No video file uploaded", [Event.respond])
    | some vf =>
      if !(truthy f.shopId && truthy f.roId && truthy f.inspectionId
            && truthy f.taskId) then
        (Outcome.badRequest "Missing required fields: shopId, roId, inspectionId, taskId",
         [Event.record vf.path] ++ cleanup env.unlinkOk [vf.path] ++ [Event.respond])
      else
        mergePhase env f vf

/-! ## Remote fetcher (src/routes/video.js lines 31–56)

`downloadFile` opens a write stream, issues a GET, follows 301/302 redirects
recursively (closing and unlinking the current file first), rejects on any
other non-200 status after unlinking, and resolves once the body is piped.
The chain of successive HTTP responses the server produces is the input
list; an empty list models a network-level error event (whose handler
deletes asynchronously and rejects). -/

/-- One HTTP response seen by the fetcher. -/
structure HttpResp where
  status : Nat
  location : String
  body : List Nat
deriving DecidableEq

/-- Observable actions of one fetch. -/
inductive FetchEvent
  | openFile (dest : String)
  | unlinkSyncEv (dest : String)
  | unlinkAsyncEv (dest : String)
  | finished (dest : String) (body : List Nat)
deriving DecidableEq

/-- Result of one fetch. -/
inductive FetchResult
  | okFetch (path : String)
  | errFetch (msg : String)
deriving DecidableEq

/-- The fetcher itself, by recursion on the response chain. -/
def downloadFile : List HttpResp → String → FetchResult × List FetchEvent
  | [], dest =>
    (FetchResult.errFetch "network error",
     [FetchEvent.openFile dest, FetchEvent.unlinkAsyncEv dest])
  | r :: rs, dest =>
    if r.status = 301 ∨ r.status = 302 then
      let next := downloadFile rs dest
      (next.1, [FetchEvent.openFile dest, FetchEvent.unlinkSyncEv dest] ++ next.2)
    else if r.status ≠ 200 then
      (FetchResult.errFetch ("Download failed: " ++ toString r.status),
       [FetchEvent.openFile dest, FetchEvent.unlinkSyncEv dest])
    else
      (FetchResult.okFetch dest,
       [FetchEvent.openFile dest, FetchEvent.finished dest r.body])

/-- The terminal (first non-redirect) response of a chain, if any. -/
def firstTerminal : List HttpResp → Option HttpResp
  | [] => none
  | r :: rs => if r.status = 301 ∨ r.status = 302 then firstTerminal rs else some r

/-! ## Claim C2 — multipart field ordering -/

/-- C2.  For every set of signer-supplied form fields, object key, content
type and file, the multipart body emitted by the form-POST upload client is:
the signer-supplied fields first, in the order supplied, then the `key`
field, then the `Content-Type` field, then the file part, then the closing
boundary.  The wire bytes `bodyBytes` (built exactly as the source builds and
writes them) coincide with `specOrderedBody`, the description the spec gives. -/
theorem multipart_body_is_spec_ordered (boundary s3Key contentType : String)
    (s3Fields : List (String × String)) (fileBytes : List Nat) :
    bodyBytes boundary s3Fields s3Key contentType fileBytes
      = specOrderedBody boundary s3Fields s3Key contentType fileBytes := by
  unfold bodyBytes specOrderedBody preFileString formParts
  rw [utf8Bytes_append, utf8Bytes_join]
  simp [List.flatMap_append, List.flatMap_map, List.append_assoc]

/-! ## Claim C3 — Content-Length exactness, no chunked encoding -/

/-- C3.  The `Content-Length` value the form-POST upload client declares up
front (pre-file text bytes + file size + trailing boundary bytes) equals the
actual number of body bytes written, the declared header carries exactly
that number, and no `Transfer-Encoding` header is set (the body is sent with
a fixed length, not chunked). -/
theorem content_length_matches_body (boundary s3Key contentType : String)
    (s3Fields : List (String × String)) (fileBytes : List Nat) :
    totalLength boundary s3Fields s3Key contentType fileBytes.length
      = (bodyBytes boundary s3Fields s3Key contentType fileBytes).length ∧
    ("Content-Length",
        toString ((bodyBytes boundary s3Fields s3Key contentType fileBytes).length))
      ∈ uploadFormHeaders boundary s3Fields s3Key contentType fileBytes.length ∧
    ∀ v, ("Transfer-Encoding", v)
      ∉ uploadFormHeaders boundary s3Fields s3Key contentType fileBytes.length := by
  have hlen : totalLength boundary s3Fields s3Key contentType fileBytes.length
      = (bodyBytes boundary s3Fields s3Key contentType fileBytes).length := by
    simp [totalLength, bodyBytes]
    omega
  refine ⟨hlen, ?_, ?_⟩
  · simp [uploadFormHeaders, hlen]
  · intro v
    simp [uploadFormHeaders]

/-! ## Claim C4 — status handling of the two upload modes -/

/-- C4 counterexample.  The claim says the direct-PUT mode also treats 201
and 204 as success; but `uploadToS3` accepts only 200: at status 201 (and
204) it rejects with the status and body. -/
theorem put_mode_rejects_201 :
    putResult 201 "x" = Except.error (201, "x") ∧
    putResult 204 "x" = Except.error (204, "x") := by
  constructor <;> rfl

/-- C4 amended.  The form-POST mode treats 200, 201 and 204 as success and
fails on every other status with an error carrying the status and response
body; the direct-PUT mode treats only 200 as success and fails on every
other status with an error carrying the status and response body. -/
theorem upload_modes_status_handling (s : Nat) (b : String) :
    (formPostResult s b = Except.ok () ↔ (s = 204 ∨ s = 200 ∨ s = 201)) ∧
    (¬(s = 204 ∨ s = 200 ∨ s = 201) → formPostResult s b = Except.error (s, b)) ∧
    (putResult s b = Except.ok () ↔ s = 200) ∧
    (s ≠ 200 → putResult s b = Except.error (s, b)) := by
  refine ⟨?_, ?_, ?_, ?_⟩
  · by_cases h : s = 204 ∨ s = 200 ∨ s = 201 <;> simp [formPostResult, h]
  · intro h; simp [formPostResult, h]
  · by_cases h : s = 200 <;> simp [putResult, h]
  · intro h; simp [putResult, h]

/-- C4 witness: the amended characterization applied at statuses 201 and 500. -/
theorem upload_modes_status_handling_witness :
    putResult 201 "y" = Except.error (201, "y") ∧
    formPostResult 201 "y" = Except.ok () ∧
    formPostResult 500 "y" = Except.error (500, "y") := by
  refine ⟨(upload_modes_status_handling 201 "y").2.2.2 (by decide),
    (upload_modes_status_handling 201 "y").1.mpr (by decide),
    (upload_modes_status_handling 500 "y").2.1 (by decide)⟩

/-! ## Merge engine lemmas -/

theorem mergeVideos_result (k : Nat → Bool) (u : String → Bool) :
    (mergeVideos k u).1 = (k 1 && k 2 && k 3) := by
  unfold mergeVideos
  by_cases h1 : k 1 <;> by_cases h2 : k 2 <;> simp [h1, h2]

theorem mergeVideos_trace (k : Nat → Bool) (u : String → Bool) :
    (mergeVideos k u).2 =
      (if k 1 then
        if k 2 then [Event.runStage 1, Event.runStage 2, Event.runStage 3]
        else [Event.runStage 1, Event.runStage 2]
       else [Event.runStage 1])
      ++ [Event.unlinkTry tempVideo1, Event.unlinkTry tempVideo2] := by
  unfold mergeVideos tryUnlink
  by_cases h1 : k 1 <;> by_cases h2 : k 2 <;> simp [h1, h2]

/-! ## Claim C6 — merge failure policy and guaranteed intermediate cleanup -/

/-- C6.  For every invocation of the merge engine: a failing stage aborts the
merge immediately (a failed stage 1 means stages 2 and 3 never run; a failed
stage 2 means stage 3 never runs); deletion of both intermediate files is
attempted on every path (success or failure); and the cleanup never raises —
the entire result is independent of whether the deletions succeed. -/
theorem merge_abort_and_guaranteed_cleanup (k : Nat → Bool) (u : String → Bool) :
    (k 1 = false → Event.runStage 2 ∉ (mergeVideos k u).2
      ∧ Event.runStage 3 ∉ (mergeVideos k u).2) ∧
    (k 2 = false → Event.runStage 3 ∉ (mergeVideos k u).2) ∧
    Event.unlinkTry tempVideo1 ∈ (mergeVideos k u).2 ∧
    Event.unlinkTry tempVideo2 ∈ (mergeVideos k u).2 ∧
    (∀ uOther, mergeVideos k uOther = mergeVideos k u) := by
  refine ⟨?_, ?_, ?_, ?_, ?_⟩
  · intro h1; rw [mergeVideos_trace]; simp [h1]
  · intro h2; rw [mergeVideos_trace]
    by_cases h1 : k 1 <;> simp [h1, h2]
  · rw [mergeVideos_trace]; simp
  · rw [mergeVideos_trace]; simp
  · intro uOther; unfold mergeVideos tryUnlink; rfl

/-- C6 witness: a run whose first stage fails skips stage 2 yet still
attempts both intermediate deletions. -/
theorem merge_abort_and_guaranteed_cleanup_witness :
    Event.runStage 2 ∉ (mergeVideos (fun _ => false) (fun _ => true)).2 ∧
    Event.unlinkTry tempVideo1 ∈ (mergeVideos (fun _ => false) (fun _ => true)).2 := by
  exact ⟨((merge_abort_and_guaranteed_cleanup (fun _ => false) (fun _ => true)).1 rfl).1,
    (merge_abort_and_guaranteed_cleanup (fun _ => false) (fun _ => true)).2.2.1⟩

/-! ## Claim C8 — remote fetcher deletes the partial file on non-2xx -/

/-- C8.  For every fetch whose terminal response status (after following
301/302 redirects) is not a 2xx success, the fetch returns an error, and the
very last action before returning is the synchronous deletion of the
partially written destination file. -/
theorem fetch_nonsuccess_deletes_file (resps : List HttpResp) (dest : String)
    (r : HttpResp) (hterm : firstTerminal resps = some r)
    (hbad : ¬(200 ≤ r.status ∧ r.status < 300)) :
    (downloadFile resps dest).1
      = FetchResult.errFetch ("Download failed: " ++ toString r.status) ∧
    (downloadFile resps dest).2.getLast? = some (FetchEvent.unlinkSyncEv dest) := by
  induction resps with
  | nil => simp [firstTerminal] at hterm
  | cons a rs ih =>
    by_cases hred : a.status = 301 ∨ a.status = 302
    · have hterm2 : firstTerminal rs = some r := by
        simpa [firstTerminal, hred] using hterm
      obtain ⟨h1, h2⟩ := ih hterm2
      unfold downloadFile
      simp only [hred, if_true]
      refine ⟨h1, ?_⟩
      rw [List.getLast?_append, h2]
      rfl
    · have har : a = r := by simpa [firstTerminal, hred] using hterm
      subst har
      have h200 : ¬a.status = 200 := by
        intro h; exact hbad (by omega)
      unfold downloadFile
      simp [hred, h200]

/-- C8 witness: a 302 redirect followed by a 403 terminal response yields the
error and ends with the synchronous unlink of the destination. -/
theorem fetch_nonsuccess_deletes_file_witness :
    (downloadFile [⟨302, "u2", []⟩, ⟨403, "", []⟩] "/tmp/d").1
      = FetchResult.errFetch ("Download failed: " ++ toString 403) ∧
    (downloadFile [⟨302, "u2", []⟩, ⟨403, "", []⟩] "/tmp/d").2.getLast?
      = some (FetchEvent.unlinkSyncEv "/tmp/d") := by
  exact fetch_nonsuccess_deletes_file [⟨302, "u2", []⟩, ⟨403, "", []⟩] "/tmp/d"
    ⟨403, "", []⟩ (by decide) (by decide)

/-! ## Handler trace lemmas -/

theorem cleanup_eq_map (u : String → Bool) (fs : List String) :
    cleanup u fs = fs.map Event.unlinkTry := by
  induction fs with
  | nil => rfl
  | cons a t ih => simp only [cleanup, tryUnlink, List.flatMap_cons] at ih ⊢
                   simp [ih]

theorem uploadPhase_events_shape (env : Env) (f : Fields) (p : String) :
    (uploadPhase env f p).2 = []
    ∨ (uploadPhase env f p).2 = [Event.upload p]
    ∨ ((uploadPhase env f p).2
        = [Event.upload p, Event.patch (sentRatingId f.rating) (ratingCodeOf f.rating)]
      ∧ (env.patchResp = none →
          (uploadPhase env f p).1 = Outcome.failure "patch request error")
      ∧ (∀ resp, env.patchResp = some resp →
          (uploadPhase env f p).1 = Outcome.success (truthy f.explainerVideoId))) := by
  unfold uploadPhase
  rcases hj : env.jwt with _ | tok
  · simp
  rcases hp : env.presigned with _ | resp
  · simp
  by_cases hs : resp.status ≠ 200
  · simp [hs]
  by_cases ht : env.presignedTarget = false
  · simp [hs, ht]
  rcases hu : env.uploadStatus with _ | s
  · simp [hs, ht]
  by_cases hok : s = 204 ∨ s = 200 ∨ s = 201
  · rcases hpr : env.patchResp with _ | pr <;> simp [hs, ht, hok, hpr]
  · simp [hs, ht, hok]

theorem uploadPhase_event_mem (env : Env) (f : Fields) (p : String) :
    ∀ e ∈ (uploadPhase env f p).2,
      e = Event.upload p
      ∨ e = Event.patch (sentRatingId f.rating) (ratingCodeOf f.rating) := by
  rcases uploadPhase_events_shape env f p with hs | hs | ⟨hs, _, _⟩ <;>
    rw [hs] <;> intro e he <;> simp_all

theorem mergeVideos_event_mem (k : Nat → Bool) (u : String → Bool) :
    ∀ e ∈ (mergeVideos k u).2,
      e = Event.runStage 1 ∨ e = Event.runStage 2 ∨ e = Event.runStage 3
      ∨ e = Event.unlinkTry tempVideo1 ∨ e = Event.unlinkTry tempVideo2 := by
  intro e he
  rw [mergeVideos_trace] at he
  cases hk1 : k 1 <;> cases hk2 : k 2 <;> simp [hk1, hk2] at he <;> tauto

/-- Shared shape of every post-validation exit (the catch block and the
success path both run the cleanup pass and then respond). -/
theorem finishRun_spec (env : Env) (needs : List String) (tr : List Event)
    (out : Outcome)
    (hrec : ∀ p, Event.record p ∈ tr → p ∈ needs)
    (hresp : Event.respond ∉ tr) :
    ∃ pre, (finishRun env needs tr out).2 = pre ++ [Event.respond]
      ∧ Event.respond ∉ pre
      ∧ ∀ p, Event.record p ∈ pre → Event.unlinkTry p ∈ pre := by
  refine ⟨tr ++ cleanup env.unlinkOk needs, by simp [finishRun, List.append_assoc], ?_, ?_⟩
  · simp only [List.mem_append, cleanup_eq_map, List.mem_map]
    push_neg
    exact ⟨hresp, by intro x _; simp⟩
  · intro p hp
    rcases List.mem_append.1 hp with h | h
    · refine List.mem_append.2 (Or.inr ?_)
      rw [cleanup_eq_map]
      exact List.mem_map.2 ⟨p, hrec p h, rfl⟩
    · exact absurd h (by simp [cleanup_eq_map])

theorem uploadPhase_no_record (env : Env) (f : Fields) (p fin : String) :
    Event.record p ∉ (uploadPhase env f fin).2 := by
  intro h
  rcases uploadPhase_event_mem env f fin _ h with h | h <;> simp at h

theorem uploadPhase_no_respond (env : Env) (f : Fields) (fin : String) :
    Event.respond ∉ (uploadPhase env f fin).2 := by
  intro h
  rcases uploadPhase_event_mem env f fin _ h with h | h <;> simp at h

theorem mergeVideos_no_record (k : Nat → Bool) (u : String → Bool) (p : String) :
    Event.record p ∉ (mergeVideos k u).2 := by
  intro h
  rcases mergeVideos_event_mem k u _ h with h | h | h | h | h <;> simp at h

theorem mergeVideos_no_respond (k : Nat → Bool) (u : String → Bool) :
    Event.respond ∉ (mergeVideos k u).2 := by
  intro h
  rcases mergeVideos_event_mem k u _ h with h | h | h | h | h <;> simp at h

theorem mergePhase_spec (env : Env) (f : Fields) (vf : VideoFile) :
    ∃ pre, (mergePhase env f vf).2 = pre ++ [Event.respond]
      ∧ Event.respond ∉ pre
      ∧ ∀ p, Event.record p ∈ pre → Event.unlinkTry p ∈ pre := by
  have hnomerge : ∀ fin,
      ∃ pre, (finishRun env [vf.path]
          ([Event.record vf.path] ++ (uploadPhase env f fin).2)
          (uploadPhase env f fin).1).2 = pre ++ [Event.respond]
        ∧ Event.respond ∉ pre
        ∧ ∀ p, Event.record p ∈ pre → Event.unlinkTry p ∈ pre := by
    intro fin
    refine finishRun_spec env _ _ _ ?_ ?_
    · intro p hp
      rcases List.mem_append.1 hp with h | h
      · simp at h; simp [h]
      · exact absurd h (uploadPhase_no_record env f p fin)
    · intro h
      rcases List.mem_append.1 h with h | h
      · simp at h
      · exact uploadPhase_no_respond env f fin h
  unfold mergePhase
  by_cases hex : truthy f.explainerVideoId = true
  · rcases hlk : env.explainerLookup with _ | ex
    · simpa [hex, hlk] using hnomerge vf.path
    · by_cases hurl : truthy ex.file_url = true
      · by_cases hdl : env.downloadOk = true
        · cases hm : (mergeVideos env.stageOk env.unlinkOk).1
          · simp only [hex, hlk, hurl, hdl, hm, if_true, if_false, Bool.false_eq_true]
            refine finishRun_spec env _ _ _ ?_ ?_
            · intro p hp
              rcases List.mem_append.1 hp with h | h
              · simp at h
                rcases h with h | h | h <;> simp [h]
              · exact absurd h (mergeVideos_no_record env.stageOk env.unlinkOk p)
            · intro h
              rcases List.mem_append.1 h with h | h
              · simp at h
              · exact mergeVideos_no_respond env.stageOk env.unlinkOk h
          · simp only [hex, hlk, hurl, hdl, hm, if_true, if_false]
            refine finishRun_spec env _ _ _ ?_ ?_
            · intro p hp
              rcases List.mem_append.1 hp with h | h
              · rcases List.mem_append.1 h with h | h
                · simp at h
                  rcases h with h | h | h <;> simp [h]
                · exact absurd h (mergeVideos_no_record env.stageOk env.unlinkOk p)
              · exact absurd h (uploadPhase_no_record env f p mergedPath)
            · intro h
              rcases List.mem_append.1 h with h | h
              · rcases List.mem_append.1 h with h | h
                · simp at h
                · exact mergeVideos_no_respond env.stageOk env.unlinkOk h
              · exact uploadPhase_no_respond env f mergedPath h
        · simp only [hex, hlk, hurl, hdl, if_true, if_false, Bool.false_eq_true]
          refine finishRun_spec env _ _ _ ?_ ?_
          · intro p hp
            simp at hp
            rcases hp with h | h <;> simp [h]
          · intro h; simp at h
      · simpa [hex, hlk, hurl] using hnomerge vf.path
  · simpa [hex] using hnomerge vf.path

/-! ## Claim C7 — cleanup totality of merge-and-upload -/

/-- C7.  For every merge-and-upload request and every exit path: the trace
ends with exactly one respond event; every artifact path recorded during the
run has a deletion attempt strictly before that respond; the cleanup routine
attempts every file it is given (one per file, independent of any deletion
failing, so one failure cannot prevent the rest); and the whole run —
outcome and trace — is unchanged under any assignment of deletion outcomes
(the cleanup never raises). -/
theorem request_cleanup_totality (env : Env) :
    (∀ uOther, handler { env with unlinkOk := uOther } = handler env) ∧
    (∀ u fs, cleanup u fs = fs.map Event.unlinkTry) ∧
    ∃ pre, (handler env).2 = pre ++ [Event.respond]
      ∧ Event.respond ∉ pre
      ∧ ∀ p, Event.record p ∈ pre → Event.unlinkTry p ∈ pre := by
  refine ⟨fun uOther => rfl, cleanup_eq_map, ?_⟩
  unfold handler
  rcases hparse : env.parse with msg | fv
  · exact ⟨[], by simp [cleanup], by simp, by simp⟩
  · rcases fv with ⟨f, vfOpt⟩
    rcases vfOpt with _ | vf
    · exact ⟨[], by simp, by simp, by simp⟩
    · by_cases hreq : (truthy f.shopId && truthy f.roId && truthy f.inspectionId
          && truthy f.taskId) = true
      · simpa [hreq] using mergePhase_spec env f vf
      · refine ⟨[Event.record vf.path, Event.unlinkTry vf.path], ?_, by simp, ?_⟩
        · simp [hreq, cleanup, tryUnlink]
        · intro p hp
          simp at hp
          simp [hp]

/-- C7 witness: the cleanup-totality decomposition at a concrete run. -/
theorem request_cleanup_totality_witness :
    ∃ pre, (handler {
        parse := Except.error "busboy error",
        explainerLookup := none, downloadOk := true, stageOk := fun _ => true,
        unlinkOk := fun _ => true, jwt := none, presigned := none,
        presignedTarget := false, uploadStatus := none, patchResp := none }).2
        = pre ++ [Event.respond]
      ∧ Event.respond ∉ pre
      ∧ ∀ p, Event.record p ∈ pre → Event.unlinkTry p ∈ pre := by
  exact (request_cleanup_totality _).2.2

/-! ## Stage sequencing machinery (for C5) -/

/-- Recognizer for ffmpeg stage invocations in a trace. -/
def isRunStageEv : Event → Bool
  | Event.runStage _ => true
  | _ => false

theorem filter_runStage_eq_nil (l : List Event)
    (h : ∀ n, Event.runStage n ∉ l) : l.filter isRunStageEv = [] := by
  rw [List.filter_eq_nil_iff]
  intro e he
  cases e <;> first
    | exact absurd he (h _)
    | simp [isRunStageEv]

theorem mergeVideos_filter_runStage (k : Nat → Bool) (u : String → Bool) :
    (mergeVideos k u).2.filter isRunStageEv
      = (if k 1 then
          if k 2 then [Event.runStage 1, Event.runStage 2, Event.runStage 3]
          else [Event.runStage 1, Event.runStage 2]
         else [Event.runStage 1]) := by
  rw [mergeVideos_trace]
  cases hk1 : k 1 <;> cases hk2 : k 2 <;> simp [hk1, hk2, isRunStageEv]

theorem mergeVideos_run2_mem (k : Nat → Bool) (u : String → Bool) :
    Event.runStage 2 ∈ (mergeVideos k u).2 → k 1 = true := by
  rw [mergeVideos_trace]
  cases hk1 : k 1 <;> cases hk2 : k 2 <;> simp [hk1, hk2]

theorem mergeVideos_run3_mem (k : Nat → Bool) (u : String → Bool) :
    Event.runStage 3 ∈ (mergeVideos k u).2 → k 1 = true ∧ k 2 = true := by
  rw [mergeVideos_trace]
  cases hk1 : k 1 <;> cases hk2 : k 2 <;> simp [hk1, hk2]

theorem uploadPhase_no_runStage (env : Env) (f : Fields) (fin : String) (n : Nat) :
    Event.runStage n ∉ (uploadPhase env f fin).2 := by
  intro h
  rcases uploadPhase_event_mem env f fin _ h with h | h <;> simp at h

theorem mergeVideos_no_upload (k : Nat → Bool) (u : String → Bool) (p : String) :
    Event.upload p ∉ (mergeVideos k u).2 := by
  intro h
  rcases mergeVideos_event_mem k u _ h with h | h | h | h | h <;> simp at h

theorem mergeVideos_no_patch (k : Nat → Bool) (u : String → Bool)
    (i : Option Nat) (c : String) :
    Event.patch i c ∉ (mergeVideos k u).2 := by
  intro h
  rcases mergeVideos_event_mem k u _ h with h | h | h | h | h <;> simp at h

/-- Either the run never invokes the merge engine, or its trace embeds the
full merge-engine trace, with only record events before it and no further
stage invocations after it — and if the merge failed, no upload after it
either. -/
theorem handler_merge_characterization (env : Env) :
    (∀ n, Event.runStage n ∉ (handler env).2) ∨
    ∃ pre post,
      (handler env).2 = pre ++ (mergeVideos env.stageOk env.unlinkOk).2 ++ post
      ∧ (∀ e ∈ pre, ∃ p, e = Event.record p)
      ∧ (∀ n, Event.runStage n ∉ post)
      ∧ ((mergeVideos env.stageOk env.unlinkOk).1 = false →
          ∀ p, Event.upload p ∉ post) := by
  rcases hparse : env.parse with msg | fv
  · left; intro n; simp [handler, hparse, cleanup]
  rcases fv with ⟨f, vfOpt⟩
  rcases vfOpt with _ | vf
  · left; intro n; simp [handler, hparse]
  by_cases hreq : (truthy f.shopId && truthy f.roId && truthy f.inspectionId
      && truthy f.taskId) = true
  case neg =>
    left; intro n
    simp [handler, hparse, hreq, cleanup, tryUnlink]
  case pos =>
  have htr : handler env = mergePhase env f vf := by
    simp [handler, hparse, hreq]
  rw [htr]
  by_cases hex : truthy f.explainerVideoId = true
  case neg =>
    left; intro n
    simp only [mergePhase, hex, Bool.false_eq_true, if_false, finishRun,
      cleanup_eq_map]
    intro hcon
    rcases List.mem_append.1 hcon with h | h
    · rcases List.mem_append.1 h with h | h
      · rcases List.mem_append.1 h with h | h
        · simp at h
        · exact uploadPhase_no_runStage env f vf.path n h
      · simp at h
    · simp at h
  case pos =>
  rcases hlk : env.explainerLookup with _ | ex
  · left; intro n
    simp only [mergePhase, hex, hlk, if_true, finishRun, cleanup_eq_map]
    intro hcon
    rcases List.mem_append.1 hcon with h | h
    · rcases List.mem_append.1 h with h | h
      · rcases List.mem_append.1 h with h | h
        · simp at h
        · exact uploadPhase_no_runStage env f vf.path n h
      · simp at h
    · simp at h
  by_cases hurl : truthy ex.file_url = true
  case neg =>
    left; intro n
    simp only [mergePhase, hex, hlk, hurl, Bool.false_eq_true, if_true, if_false,
      finishRun, cleanup_eq_map]
    intro hcon
    rcases List.mem_append.1 hcon with h | h
    · rcases List.mem_append.1 h with h | h
      · rcases List.mem_append.1 h with h | h
        · simp at h
        · exact uploadPhase_no_runStage env f vf.path n h
      · simp at h
    · simp at h
  case pos =>
  by_cases hdl : env.downloadOk = true
  case neg =>
    left; intro n
    simp [mergePhase, hex, hlk, hurl, hdl, finishRun, cleanup_eq_map]
  case pos =>
  cases hm : (mergeVideos env.stageOk env.unlinkOk).1
  · right
    refine ⟨[Event.record vf.path, Event.record explainerPath, Event.record mergedPath],
      cleanup env.unlinkOk ([vf.path] ++ [explainerPath] ++ [mergedPath])
        ++ [Event.respond], ?_, ?_, ?_, ?_⟩
    · simp [mergePhase, hex, hlk, hurl, hdl, hm, finishRun, List.append_assoc]
    · intro e he
      simp at he
      rcases he with h | h | h <;> exact ⟨_, h⟩
    · intro n hn
      rw [cleanup_eq_map] at hn
      rcases List.mem_append.1 hn with h | h <;> simp at h
    · intro _ p hp
      rw [cleanup_eq_map] at hp
      rcases List.mem_append.1 hp with h | h <;> simp at h
  · right
    refine ⟨[Event.record vf.path, Event.record explainerPath, Event.record mergedPath],
      (uploadPhase env f mergedPath).2
        ++ (cleanup env.unlinkOk ([vf.path] ++ [explainerPath] ++ [mergedPath])
            ++ [Event.respond]), ?_, ?_, ?_, ?_⟩
    · simp [mergePhase, hex, hlk, hurl, hdl, hm, finishRun, List.append_assoc]
    · intro e he
      simp at he
      rcases he with h | h | h <;> exact ⟨_, h⟩
    · intro n hn
      rcases List.mem_append.1 hn with h | h
      · exact uploadPhase_no_runStage env f mergedPath n h
      · rw [cleanup_eq_map] at h
        rcases List.mem_append.1 h with h | h <;> simp at h
    · intro hcon
      simp at hcon

/-- Fields of a fully populated request whose explainer id is supplied. -/
def sampleFields : Fields :=
  { shopId := some "1", roId := some "2", inspectionId := some "3",
    taskId := some "4", taskName := none, rating := none, description := none,
    explainerVideoId := some "42", taskData := none }

/-- The parsed upload of the sample request. -/
def sampleVideo : VideoFile := { path := "/tmp/upload.mp4", filename := "v.mp4" }

/-- An environment in which every external operation succeeds and the
explainer resolves, so the full merge-and-upload pipeline runs. -/
def happyEnv : Env :=
  { parse := Except.ok (sampleFields, some sampleVideo),
    explainerLookup := some { file_url := some "https-url", name := "Expl" },
    downloadOk := true, stageOk := fun _ => true, unlinkOk := fun _ => true,
    jwt := some "tok", presigned := some { status := 200, body := "ok" },
    presignedTarget := true, uploadStatus := some 204,
    patchResp := some { status := 200, body := "ok" } }

/-! ## Claim C5 — strict stage ordering -/

/-- C5.  In every merge-and-upload run: the ffmpeg stage invocations in the
trace form a prefix of stage 1, stage 2, stage 3 in that order (stage n+1
never starts before stage n); stage 2 is invoked only if stage 1 exited
successfully; stage 3 only if stages 1 and 2 both did; and if the upload
step is invoked in a run in which the merge engine ran at all, then all
three stages succeeded. -/
theorem stage_sequencing (env : Env) :
    ((handler env).2.filter isRunStageEv).isPrefixOf
        [Event.runStage 1, Event.runStage 2, Event.runStage 3] = true ∧
    (Event.runStage 2 ∈ (handler env).2 → env.stageOk 1 = true) ∧
    (Event.runStage 3 ∈ (handler env).2 →
      env.stageOk 1 = true ∧ env.stageOk 2 = true) ∧
    (∀ p, Event.upload p ∈ (handler env).2 → Event.runStage 1 ∈ (handler env).2 →
      env.stageOk 1 = true ∧ env.stageOk 2 = true ∧ env.stageOk 3 = true) := by
  rcases handler_merge_characterization env with hA | ⟨pre, post, htr, hpre, hpost, hupfail⟩
  · refine ⟨?_, ?_, ?_, ?_⟩
    · rw [filter_runStage_eq_nil _ hA]; rfl
    · intro h; exact absurd h (hA 2)
    · intro h; exact absurd h (hA 3)
    · intro p _ hrun; exact absurd hrun (hA 1)
  · have hpre2 : ∀ n, Event.runStage n ∉ pre := by
      intro n hn
      rcases hpre _ hn with ⟨p, hp⟩
      simp at hp
    refine ⟨?_, ?_, ?_, ?_⟩
    · rw [htr]
      simp only [List.filter_append]
      rw [filter_runStage_eq_nil _ hpre2, filter_runStage_eq_nil _ hpost,
        mergeVideos_filter_runStage]
      cases hk1 : env.stageOk 1 <;> cases hk2 : env.stageOk 2 <;>
        simp [hk1, hk2]
    · intro h
      rw [htr] at h
      rcases List.mem_append.1 h with h | h
      · rcases List.mem_append.1 h with h | h
        · exact absurd h (hpre2 2)
        · exact mergeVideos_run2_mem _ _ h
      · exact absurd h (hpost 2)
    · intro h
      rw [htr] at h
      rcases List.mem_append.1 h with h | h
      · rcases List.mem_append.1 h with h | h
        · exact absurd h (hpre2 3)
        · exact mergeVideos_run3_mem _ _ h
      · exact absurd h (hpost 3)
    · intro p hup hrun
      rw [htr] at hup
      rcases List.mem_append.1 hup with h | h
      · rcases List.mem_append.1 h with h | h
        · rcases hpre _ h with ⟨q, hq⟩
          simp at hq
        · exact absurd h (mergeVideos_no_upload _ _ p)
      · by_cases hm : (mergeVideos env.stageOk env.unlinkOk).1 = true
        · have hall : (env.stageOk 1 && env.stageOk 2 && env.stageOk 3) = true := by
            rw [← mergeVideos_result env.stageOk env.unlinkOk, hm]
          simp only [Bool.and_eq_true] at hall
          exact ⟨hall.1.1, hall.1.2, hall.2⟩
        · have hf : (mergeVideos env.stageOk env.unlinkOk).1 = false := by
            revert hm
            cases (mergeVideos env.stageOk env.unlinkOk).1 <;> simp
          exact absurd h (hupfail hf p)

/-- C5 witness: in the all-success run the third stage is invoked and the
theorem yields that stages 1 and 2 succeeded. -/
theorem stage_sequencing_witness :
    happyEnv.stageOk 1 = true ∧ happyEnv.stageOk 2 = true :=
  (stage_sequencing happyEnv).2.2.1 (by decide)

/-! ## Patch-event provenance (for C9 and C10) -/

/-- A metadata-patch call in the trace can only come from the upload phase:
the request parsed, and the outcome of the handler is the outcome of that
upload phase. -/
theorem handler_patch_provenance (env : Env) (i : Option Nat) (c : String)
    (hev : Event.patch i c ∈ (handler env).2) :
    ∃ f vf fin, env.parse = Except.ok (f, some vf)
      ∧ Event.patch i c ∈ (uploadPhase env f fin).2
      ∧ (handler env).1 = (uploadPhase env f fin).1 := by
  rcases hparse : env.parse with msg | fv
  · simp [handler, hparse, cleanup] at hev
  rcases fv with ⟨f, vfOpt⟩
  rcases vfOpt with _ | vf
  · simp [handler, hparse] at hev
  by_cases hreq : (truthy f.shopId && truthy f.roId && truthy f.inspectionId
      && truthy f.taskId) = true
  case neg => simp [handler, hparse, hreq, cleanup, tryUnlink] at hev
  case pos =>
  have htr : handler env = mergePhase env f vf := by
    simp [handler, hparse, hreq]
  rw [htr] at hev ⊢
  by_cases hex : truthy f.explainerVideoId = true
  case neg =>
    simp [mergePhase, hex, finishRun, cleanup_eq_map] at hev
    exact ⟨f, vf, vf.path, rfl, hev, by simp [mergePhase, hex, finishRun]⟩
  case pos =>
  rcases hlk : env.explainerLookup with _ | ex
  · simp [mergePhase, hex, hlk, finishRun, cleanup_eq_map] at hev
    exact ⟨f, vf, vf.path, rfl, hev, by simp [mergePhase, hex, hlk, finishRun]⟩
  by_cases hurl : truthy ex.file_url = true
  case neg =>
    simp [mergePhase, hex, hlk, hurl, finishRun, cleanup_eq_map] at hev
    exact ⟨f, vf, vf.path, rfl, hev,
      by simp [mergePhase, hex, hlk, hurl, finishRun]⟩
  case pos =>
  by_cases hdl : env.downloadOk = true
  case neg => simp [mergePhase, hex, hlk, hurl, hdl, finishRun, cleanup_eq_map] at hev
  case pos =>
  cases hm : (mergeVideos env.stageOk env.unlinkOk).1
  · simp [mergePhase, hex, hlk, hurl, hdl, hm, finishRun, cleanup_eq_map] at hev
    exact absurd hev (mergeVideos_no_patch _ _ i c)
  · simp [mergePhase, hex, hlk, hurl, hdl, hm, finishRun, cleanup_eq_map] at hev
    rcases hev with h | h
    · exact absurd h (mergeVideos_no_patch _ _ i c)
    · exact ⟨f, vf, mergedPath, rfl, h,
        by simp [mergePhase, hex, hlk, hurl, hdl, hm, finishRun]⟩

/-! ## Claim C9 — metadata patch failure does not override upload success -/

/-- C9.  In any run that reaches the metadata-patch call (which the source
only does after a successful S3 upload), if the patch call gets an HTTP
response back — with any status whatsoever, 2xx or not — the handler still
returns a success outcome: the source never inspects the patch response. -/
theorem metadata_patch_nonfatal (env : Env) (i : Option Nat) (c : String)
    (resp : TMResponse)
    (hpatch : Event.patch i c ∈ (handler env).2)
    (hresp : env.patchResp = some resp) :
    ∃ m, (handler env).1 = Outcome.success m := by
  rcases handler_patch_provenance env i c hpatch with ⟨f, vf, fin, _, hmem, hout⟩
  rcases uploadPhase_events_shape env f fin with hs | hs | ⟨hs, _, hsucc⟩
  · rw [hs] at hmem; simp at hmem
  · rw [hs] at hmem; simp at hmem
  · exact ⟨truthy f.explainerVideoId, by rw [hout]; exact hsucc resp hresp⟩

/-- C9 witness: with the metadata patch answering 500, the outcome is still
a success. -/
theorem metadata_patch_nonfatal_witness :
    ∃ m, (handler { happyEnv with
        patchResp := some { status := 500, body := "err" } }).1
      = Outcome.success m :=
  metadata_patch_nonfatal _ (some 3) "RQRSATTN" { status := 500, body := "err" }
    (by decide) rfl

/-! ## Claim C10 — rating fallback mapping -/

/-- The sample fields carrying a rating that names an Object.prototype
member: an unrecognized, non-empty rating string the claim quantifies over. -/
def protoRatingFields : Fields := { sampleFields with rating := some "toString" }

/-- The all-success environment carrying that prototype-member rating. -/
def protoRatingEnv : Env :=
  { happyEnv with parse := Except.ok (protoRatingFields, some sampleVideo) }

/-- C10 counterexample.  With the reachable unrecognized non-empty rating
toString, the bracket lookup hits the truthy inherited Object.prototype
function, the or-3 fallback does not fire, and the metadata update sent
carries no numeric id at all — not id 3 with the code forwarded verbatim as
the claim states. -/
theorem proto_rating_defeats_id_fallback :
    Event.patch none "toString" ∈ (handler protoRatingEnv).2
    ∧ Event.patch (some 3) "toString" ∉ (handler protoRatingEnv).2
    ∧ sentRatingId (some "toString") = none
    ∧ ratingMap "toString" = JsLookup.protoMember := by decide

/-- C10 amended.  When the metadata update is sent and the rating field of
the request is absent, or is a non-empty string that is none of GOOD,
MAYRQRATTN, RQRSATTN and does not name an Object.prototype member, the
update carries numeric inspection rating id 3 (whose display name is
Requires Immediate Attention); an absent rating sends code RQRSATTN, and
such an unrecognized string is forwarded verbatim as the code. -/
theorem rating_fallback (env : Env) (f : Fields) (vfOpt : Option VideoFile)
    (i : Option Nat) (c : String)
    (hp : env.parse = Except.ok (f, vfOpt))
    (hev : Event.patch i c ∈ (handler env).2)
    (hbad : f.rating = none ∨ ∀ s, f.rating = some s →
        s ≠ "GOOD" ∧ s ≠ "MAYRQRATTN" ∧ s ≠ "RQRSATTN" ∧ s ∉ objectProtoProps) :
    i = some 3 ∧ ratingNameOf (ratingIdOf f.rating) = "Requires Immediate Attention"
      ∧ (f.rating = none → c = "RQRSATTN")
      ∧ (∀ s, f.rating = some s → s ≠ "" → c = s) := by
  rcases handler_patch_provenance env i c hev with ⟨f2, vf2, fin, hp2, hmem, _⟩
  rw [hp] at hp2
  injection hp2 with hpair
  have hff : f = f2 := congrArg Prod.fst hpair
  subst hff
  have hargs : i = sentRatingId f.rating ∧ c = ratingCodeOf f.rating := by
    rcases uploadPhase_events_shape env f fin with hs | hs | ⟨hs, _, _⟩ <;>
      rw [hs] at hmem <;> simp at hmem
    exact hmem
  rcases hr : f.rating with _ | s
  · have hi : i = some 3 := by rw [hargs.1, hr]; rfl
    have hc : c = "RQRSATTN" := by rw [hargs.2, hr]; rfl
    refine ⟨hi, rfl, fun _ => hc, ?_⟩
    intro s hs
    simp at hs
  · have hbs : s ≠ "GOOD" ∧ s ≠ "MAYRQRATTN" ∧ s ≠ "RQRSATTN"
        ∧ s ∉ objectProtoProps := by
      rcases hbad with hb | hb
      · rw [hr] at hb; simp at hb
      · exact hb s hr
    have hlk : ratingMap s = JsLookup.undef := by
      simp [ratingMap, hbs.1, hbs.2.1, hbs.2.2.1, hbs.2.2.2]
    have hi : i = some 3 := by
      rw [hargs.1, hr]
      simp [sentRatingId, ratingIdOf, hlk]
    have hc : c = ratingCodeOf (some s) := by rw [hargs.2, hr]
    refine ⟨hi, ?_, ?_, ?_⟩
    · simp [ratingIdOf, hlk, ratingNameOf]
    · intro hnone; simp at hnone
    · intro t ht hne
      have hst : s = t := by simpa using ht
      subst hst
      rw [hc]
      simp [ratingCodeOf, hne]

/-- The sample fields with an unrecognized non-empty rating string that is
not an Object.prototype member name. -/
def oddRatingFields : Fields := { sampleFields with rating := some "WEIRD" }

/-- The all-success environment carrying the unrecognized rating. -/
def oddRatingEnv : Env :=
  { happyEnv with parse := Except.ok (oddRatingFields, some sampleVideo) }

/-- C10 witness: the unrecognized rating WEIRD is sent with numeric id 3,
displayed Requires Immediate Attention. -/
theorem rating_fallback_witness :
    sentRatingId oddRatingFields.rating = some 3
      ∧ ratingNameOf (ratingIdOf oddRatingFields.rating)
        = "Requires Immediate Attention" := by
  have h := rating_fallback oddRatingEnv oddRatingFields (some sampleVideo)
    (sentRatingId oddRatingFields.rating) "WEIRD" rfl (by decide)
    (Or.inr (by
      intro s hs
      have hs2 : "WEIRD" = s := by simpa [oddRatingFields, sampleFields] using hs
      subst hs2
      exact ⟨by decide, by decide, by decide, by decide⟩))
  exact ⟨h.1, h.2.1⟩

/-! ## Claim C1 — unresolvable explainer id: graceful, but merged flag wrong -/

/-- An environment identical to the all-success one except the explainer
lookup cannot resolve the supplied id (`getExplainerVideoUrl` returns null). -/
def lookupMissEnv : Env := { happyEnv with explainerLookup := none }

/-- C1.  With an explainer id supplied but unresolvable, the request indeed
does not fail and proceeds with the original video only (the original upload
path is uploaded and no ffmpeg stage ever runs) — but the returned outcome
reports merged = true, not merged = false as claimed: the source computes
the flag as truthiness of the supplied id, not as whether a merge happened. -/
theorem explainer_miss_reports_merged_true :
    (handler lookupMissEnv).1 = Outcome.success true
    ∧ Event.upload sampleVideo.path ∈ (handler lookupMissEnv).2
    ∧ (handler lookupMissEnv).2.filter isRunStageEv = []
    ∧ truthy sampleFields.explainerVideoId = true := by decide
